import Mathlib

set_option linter.unusedVariables false

namespace JsPlayground

/-- Identity of the clicked element, as inspected by the delegated click
handlers. The JS code compares `event.target.id` against the literal
string `add-todo-button` and against the per-index template strings
`delete-todo-i` and `edit-todo-i`; those families of id strings are
pairwise distinct and injective in the index, which this structured type
captures directly. `other` stands for any id outside the three families. -/
inductive ElemId where
  | addTodoButton : ElemId
  | deleteTodo : Nat → ElemId
  | editTodo : Nat → ElemId
  | other : String → ElemId
  deriving DecidableEq, Repr

/-- A whitespace character as JS `String.prototype.trim` treats it
(space, tab, line feed, carriage return, form feed, vertical tab); the
input strings of this application never contain the further exotic
whitespace code points JS would also strip. -/
def jsIsWhitespace (c : Char) : Bool :=
  c = ' ' || c = '\t' || c = '\n' || c = '\r' || c = '\x0c' || c = '\x0b'

/-- JS `value.trim()`: strip leading and trailing whitespace. -/
def jsTrim (s : String) : String :=
  String.mk (((s.data.dropWhile jsIsWhitespace).reverse.dropWhile jsIsWhitespace).reverse)

/-- JS `prev.filter((_, i) => i !== index)` from the useState iteration's
delete branch: keep the elements whose position differs from `index`;
`start` is the position of the head of the remaining list. -/
def filterIdxNe (index : Nat) : List String → Nat → List String
  | [], _ => []
  | a :: as, start =>
      if start ≠ index then a :: filterIdxNe index as (start + 1)
      else filterIdxNe index as (start + 1)

/-- The delete branch's whole-array filter, positions counted from 0. -/
def removeIdx (l : List String) (index : Nat) : List String :=
  filterIdxNe index l 0

/-- JS `todos.splice(index, 1)`: for an in-range index this removes the
element at that position; for an index at or past the end it removes
nothing. `take`/`drop` express both cases at once. -/
def splice1 (l : List String) (index : Nat) : List String :=
  l.take index ++ l.drop (index + 1)

/-- JS `updatedTodos[i] = v` on the copied todos array (`[...prev]`). In
range it overwrites the slot. The code only reaches this assignment with
the edit cursor as index, which the cursor invariant keeps in range; an
out-of-range nonnegative JS assignment would lengthen the array with
holes (modelled as padding with empty strings), and a negative index
stores an object property, leaving the array contents unchanged. -/
def jsArraySet (l : List String) (i : Int) (v : String) : List String :=
  if 0 ≤ i ∧ i < (l.length : Int) then l.set i.toNat v
  else if 0 ≤ i then l ++ List.replicate (i.toNat - l.length) "" ++ [v]
  else l

/-- JS `getTodos()[index]` read. An out-of-range read yields `undefined`,
which an input-value assignment would stringify; in the handler the read
is always in range. -/
def jsGetElem (l : List String) (k : Nat) : String :=
  (l[k]?).getD "undefined"

/-- Application state of the useState iteration: the two state cells
(`todos` and `editIndex`) plus the value of the text input element that
is currently attached in the document. -/
structure AppState where
  todos : List String
  editIndex : Int
  inputValue : String
  deriving DecidableEq, Repr

/-- State threaded through one click-handler invocation of the useState
iteration. `captured` is the value of the input element captured by
`document.querySelector` at the start of the handler; `attached` records
whether that element is still in the document (every `render()` wipes the
mount point and builds a fresh, empty input, detaching the captured one);
`domInput` is the value of the input element currently in the document. -/
structure ClickCtx where
  todos : List String
  editIndex : Int
  captured : String
  attached : Bool
  domInput : String
  deriving DecidableEq, Repr

/-- Effect of `render()` on the input element: the mount point is cleared
and rebuilt, so the captured element is detached and the document now
holds a fresh input whose value is empty. -/
def doRender (c : ClickCtx) : ClickCtx :=
  { c with attached := false, domInput := "" }

/-- JS `input.value = v` on the captured element: the captured element
always takes the value; the document's input is affected only while the
captured element is still attached. -/
def writeInput (v : String) (c : ClickCtx) : ClickCtx :=
  { c with captured := v, domInput := if c.attached then v else c.domInput }

/-- `setTodos(f)`: the useState setter applies the transform to the
current value and then invokes the render callback. -/
def setTodosF (f : List String → List String) (c : ClickCtx) : ClickCtx :=
  doRender { c with todos := f c.todos }

/-- `setEditIndex(v)` with a literal value: store it, then render. -/
def setEditIndexV (v : Int) (c : ClickCtx) : ClickCtx :=
  doRender { c with editIndex := v }

/-- `setEditIndex(prev => prev - 1)`: transform, then render. -/
def setEditIndexDec (c : ClickCtx) : ClickCtx :=
  doRender { c with editIndex := c.editIndex - 1 }

/-- The add/update branch of the useState iteration's click handler
(`if (event.target.id === 'add-todo-button')`): trim the captured input
value; if non-empty, either overwrite the slot at the edit cursor and
reset the cursor, or append; in all cases finish with `input.value = ''`
on the captured element. -/
def addBranch (c : ClickCtx) : ClickCtx :=
  let todoText := jsTrim c.captured
  let c1 :=
    if todoText ≠ "" then
      if c.editIndex ≠ -1 then
        setEditIndexV (-1) (setTodosF (fun prev => jsArraySet prev c.editIndex todoText) c)
      else
        setTodosF (fun prev => prev ++ [todoText]) c
    else c
  writeInput "" c1

/-- One iteration of `getTodos().forEach((_todo, index) => ...)` in the
useState iteration's click handler, at position `k`: the delete check
(filter out position `k`, then fix up the edit cursor and, when the
edited item itself was deleted, clear the input), followed by the edit
check (set the cursor to `k`, then write that item's text into the
captured input element). -/
def loopBody (target : ElemId) (k : Nat) (c : ClickCtx) : ClickCtx :=
  let c1 :=
    if target = ElemId.deleteTodo k then
      let cA := setTodosF (fun prev => removeIdx prev k) c
      if cA.editIndex = (k : Int) then
        writeInput "" (setEditIndexV (-1) cA)
      else if (k : Int) < cA.editIndex then
        setEditIndexDec cA
      else cA
    else c
  if target = ElemId.editTodo k then
    let cB := setEditIndexV (Int.ofNat k) c1
    writeInput (jsGetElem cB.todos k) cB
  else c1

/-- The whole delegated click handler of the useState iteration: capture
the input element, run the add/update branch when the target is the
add button, then run the forEach over a snapshot of the current todos
(the snapshot never mutates, because the setters install fresh arrays). -/
def handleClick (target : ElemId) (s : AppState) : AppState :=
  let c0 : ClickCtx :=
    { todos := s.todos, editIndex := s.editIndex, captured := s.inputValue
      attached := true, domInput := s.inputValue }
  let c1 := if target = ElemId.addTodoButton then addBranch c0 else c0
  let snap := c1.todos
  let c2 := (List.range snap.length).foldl (fun c k => loopBody target k c) c1
  { todos := c2.todos, editIndex := c2.editIndex, inputValue := c2.domInput }

/-- The cursor invariant: the edit cursor is the sentinel or a valid
index into the todos. -/
def cursorInv (len : Nat) (e : Int) : Prop :=
  e = -1 ∨ (0 ≤ e ∧ e < (len : Int))

instance (len : Nat) (e : Int) : Decidable (cursorInv len e) := by
  unfold cursorInv; infer_instance

/-- The invariant on a whole application state. -/
def invS (s : AppState) : Prop :=
  cursorInv s.todos.length s.editIndex

instance (s : AppState) : Decidable (invS s) := by
  unfold invS; infer_instance

/-- Initial application state: `useState([], render)`, `useState(-1, render)`
and an empty input field. -/
def initState : AppState :=
  { todos := [], editIndex := -1, inputValue := "" }

/-- Run a sequence of clicks from a starting state. -/
def run (clicks : List ElemId) (s : AppState) : AppState :=
  clicks.foldl (fun s t => handleClick t s) s

/-- Application state of the basic iterations (src/src/index.js and the
first part_002 iteration): a todos array and the document input value. -/
structure BasicState where
  todos : List String
  inputValue : String
  deriving DecidableEq, Repr

/-- The `todos.forEach` delete loop of the basic iterations, which calls
`todos.splice(index, 1)` on the live array while iterating over it:
JS `forEach` captures the array length once at the start (the `fuel`
argument) and skips positions at or past the current length after the
array has shrunk. Returns the final array and whether `render()` ran. -/
def deleteForEachGo (target : ElemId) : Nat → Nat → List String → Bool → List String × Bool
  | 0, _, l, r => (l, r)
  | n + 1, k, l, r =>
      if k < l.length then
        if target = ElemId.deleteTodo k then
          deleteForEachGo target n (k + 1) (splice1 l k) true
        else
          deleteForEachGo target n (k + 1) l r
      else
        deleteForEachGo target n (k + 1) l r

/-- The basic delete loop started at position 0 with the length captured
at entry. -/
def deleteForEach (target : ElemId) (l : List String) : List String × Bool :=
  deleteForEachGo target l.length 0 l false

/-- The whole delegated click handler of the basic iterations: when the
add button was clicked, push the trimmed input value unconditionally (no
empty-text check exists in this iteration), set `input.value = ''` and
render; then run the delete forEach over the (possibly just extended)
todos array. Any `render()` rebuilds the input element empty. -/
def handleClickBasic (target : ElemId) (s : BasicState) : BasicState :=
  let afterAdd : List String × String :=
    if target = ElemId.addTodoButton then (s.todos ++ [jsTrim s.inputValue], "")
    else (s.todos, s.inputValue)
  let res := deleteForEach target afterAdd.1
  { todos := res.1, inputValue := if res.2 then "" else afterAdd.2 }

/-- The add/update click of the second part_002 iteration (the state
object with `todos` and `editIndex`), specialised to the add button
target: trim, then update in place at the edit cursor or push, then
`input.value = ''` and `render()`, which rebuilds the input empty. The
subsequent delete/edit forEach matches no id for this target and is
therefore a no-op here. -/
def stateObjAddClick (s : AppState) : AppState :=
  let todoText := jsTrim s.inputValue
  let next : List String × Int :=
    if todoText ≠ "" then
      if s.editIndex ≠ -1 then (jsArraySet s.todos s.editIndex todoText, -1)
      else (s.todos ++ [todoText], s.editIndex)
    else (s.todos, s.editIndex)
  { todos := next.1, editIndex := next.2, inputValue := "" }

/-- Argument passed to the useState setter. The JS setter dispatches on
`typeof newVal === 'function'`: `fn` stands for any argument whose
runtime type is a function, `val` for any other value. -/
inductive SetArg (α : Type) where
  | fn : (α → α) → SetArg α
  | val : α → SetArg α

/-- Observable events of one setter invocation, in execution order:
the assignment to the state cell, the render callback running (recording
the value the getter returns at that moment), or the `console.warn`
branch when no callback was supplied. -/
inductive SetEvent (α : Type) where
  | assigned : α → SetEvent α
  | callbackRun : α → SetEvent α
  | warned : SetEvent α
  deriving DecidableEq

/-- The useState setter: compute the new value (applying the argument to
the current value when it is a function, taking it literally otherwise),
assign it to the cell, and only then either run the render callback,
which observes the already-updated cell, or warn. Returns the final cell
value and the event trace. -/
def setState (hasRenderFn : Bool) (value : α) (newVal : SetArg α) : α × List (SetEvent α) :=
  let value' :=
    match newVal with
    | SetArg.fn f => f value
    | SetArg.val a => a
  if hasRenderFn then (value', [SetEvent.assigned value', SetEvent.callbackRun value'])
  else (value', [SetEvent.assigned value', SetEvent.warned])

/-- The useState constructor's initial store: `let value = initialVal`
stores the argument verbatim, with no function dispatch. -/
def useStateInit (initialVal : α) : α := initialVal

/-- A built DOM element as `createElement` produces it: tag name, class
list (filled by `classList.add`), inline style text (`style.cssText`),
data attributes (`element.dataset`), plain attributes (`setAttribute`),
and child nodes (elements or text nodes). -/
inductive VNode where
  | text : String → VNode
  | elem : String → List String → String → List (String × String) →
      List (String × String) → List VNode → VNode

/-- An attribute value in the map passed to `createElement`: either a
plain string, or an object of key/value pairs (used for the reserved
`style` and `dataset` keys). -/
inductive AttrVal where
  | str : String → AttrVal
  | pairs : List (String × String) → AttrVal

/-- A child argument to `createElement`: a string (appended as a text
node) or an already built node. Any other runtime type would raise the
TypeKind error `Children must be a string or a Node`; such a value is
unrepresentable in this embedding and never occurs at any call site. -/
inductive ChildArg where
  | str : String → ChildArg
  | node : VNode → ChildArg

/-- The Style Serializer `extractStyle`: join the entries as
`key: value` fragments separated by `;`, preserving order. -/
def extractStyle (entries : List (String × String)) : String :=
  String.intercalate ";" (entries.map (fun p => p.1 ++ ": " ++ p.2))

/-- Helper for JS `value.split(' ')`: split a character list at every
space, never dropping empty fragments, exactly as the JS single-space
separator behaves. -/
def jsSplitSpaceAux : List Char → List Char → List String
  | [], acc => [String.mk acc.reverse]
  | c :: cs, acc =>
      if c = ' ' then String.mk acc.reverse :: jsSplitSpaceAux cs []
      else jsSplitSpaceAux cs (c :: acc)

/-- JS `value.split(' ')` as used on the `class` attribute value. -/
def jsSplitSpace (s : String) : List String :=
  jsSplitSpaceAux s.data []

/-- Accumulator for `createElement`'s attribute loop. -/
structure ElemBuild where
  classes : List String
  cssText : String
  dataset : List (String × String)
  attrs : List (String × String)

/-- One step of `createElement`'s `for (const [key, value] of
Object.entries(attributes))` loop: `class` splits the string on spaces
into class memberships, `style` serialises the object into the inline
style text, `dataset` copies each pair into a data attribute, and any
other key becomes a literal `setAttribute` pair. A reserved key paired
with the wrong runtime type never occurs at any call site and is left
as a no-op. -/
def applyAttr (e : ElemBuild) (kv : String × AttrVal) : ElemBuild :=
  match kv with
  | ("class", AttrVal.str v) => { e with classes := e.classes ++ jsSplitSpace v }
  | ("style", AttrVal.pairs kvs) => { e with cssText := extractStyle kvs }
  | ("dataset", AttrVal.pairs kvs) => { e with dataset := e.dataset ++ kvs }
  | (k, AttrVal.str v) => { e with attrs := e.attrs ++ [(k, v)] }
  | (_, AttrVal.pairs _) => e

/-- Convert a child argument the way `createElement`'s child loop does:
strings become text nodes, nodes are appended as they are. -/
def toChildNode : ChildArg → VNode
  | ChildArg.str s => VNode.text s
  | ChildArg.node v => v

/-- The Element Builder `createElement`: create the element, process the
attribute map in order, then append every child. It returns the new node
and attaches nothing to any existing tree. -/
def createElement (tagName : String) (attributes : List (String × AttrVal))
    (children : List ChildArg) : VNode :=
  let b := attributes.foldl applyAttr
    { classes := [], cssText := "", dataset := [], attrs := [] }
  VNode.elem tagName b.classes b.cssText b.dataset b.attrs (children.map toChildNode)

/-- DOM `parent.appendChild(child)` (and each element appended by
`append(...items)`), as a functional update. Appending to a text node
cannot happen at any call site. -/
def vAppend (parent : VNode) (child : VNode) : VNode :=
  match parent with
  | VNode.elem t cl cs ds ats ch => VNode.elem t cl cs ds ats (ch ++ [child])
  | VNode.text s => VNode.text s

/-- One todo row of the useState iteration's `todoComponent`: a list item
holding the text span and a button group with the edit and delete
buttons, all ids derived from the current position. -/
def buildItem (todo : String) (index : Nat) : VNode :=
  let todoItem := createElement "li" [("class", AttrVal.str "todo-item")] []
  let textSpan := createElement "span"
    [("class", AttrVal.str "text"), ("id", AttrVal.str ("todo-" ++ toString index))]
    [ChildArg.str todo]
  let buttonGroup := createElement "div" [("class", AttrVal.str "button-group")] []
  let editButton := createElement "button"
    [("id", AttrVal.str ("edit-todo-" ++ toString index)),
     ("class", AttrVal.str "edit-button"), ("type", AttrVal.str "button")]
    [ChildArg.str "Edit"]
  let deleteButton := createElement "button"
    [("id", AttrVal.str ("delete-todo-" ++ toString index)),
     ("class", AttrVal.str "delete-button"), ("type", AttrVal.str "button")]
    [ChildArg.str "Delete"]
  let buttonGroup := vAppend (vAppend buttonGroup editButton) deleteButton
  vAppend (vAppend todoItem textSpan) buttonGroup

/-- `getTodos().map((todo, index) => ...)` building the rows in order. -/
def buildItems : List String → Nat → List VNode
  | [], _ => []
  | t :: ts, i => buildItem t i :: buildItems ts (i + 1)

/-- The Todo View Builder of the useState iteration: the container plus
the ordered children list (title, input section, todo list, stats
section). The input placeholder and the button label depend on the edit
cursor; an empty todos list gets the single placeholder row instead of
item rows. -/
def todoComponent (todos : List String) (editIndex : Int) : VNode × List VNode :=
  let todoContainer := createElement "div"
    [("id", AttrVal.str "todo-container"), ("class", AttrVal.str "todo-container")] []
  let title := createElement "h1" [("class", AttrVal.str "todo-title")]
    [ChildArg.str "Todo List"]
  let inputSection := createElement "div" [("class", AttrVal.str "input-section")] []
  let input := createElement "input"
    [("id", AttrVal.str "todo-input"), ("class", AttrVal.str "todo-input"),
     ("type", AttrVal.str "text"),
     ("placeholder", AttrVal.str
        (if editIndex ≠ -1 then "Edit your todo..." else "Add a new todo..."))] []
  let addButton := createElement "button"
    [("id", AttrVal.str "add-todo-button"), ("class", AttrVal.str "todo-button"),
     ("type", AttrVal.str "button")]
    [ChildArg.str (if editIndex ≠ -1 then "Update Todo" else "Add Todo")]
  let inputSection := vAppend (vAppend inputSection input) addButton
  let todoList := createElement "ul"
    [("id", AttrVal.str "todo-list"), ("class", AttrVal.str "todo-list")] []
  let items := buildItems todos 0
  let todoList :=
    if items.length = 0 then
      vAppend todoList (createElement "li" [("class", AttrVal.str "empty-message")]
        [ChildArg.str "No todos available. Add a new todo!"])
    else
      items.foldl vAppend todoList
  let statsSection := createElement "div" [("class", AttrVal.str "stats-section")] []
  let statsTitle := createElement "div" [("class", AttrVal.str "stats-title")]
    [ChildArg.str "Statistics"]
  let totalStat := createElement "div" [("class", AttrVal.str "stats-item")] []
  let totalStat := vAppend totalStat (createElement "span" [] [ChildArg.str "Total tasks:"])
  let totalStat := vAppend totalStat
    (createElement "span" [("class", AttrVal.str "stats-value")]
      [ChildArg.str (toString todos.length)])
  let statsSection := vAppend (vAppend statsSection statsTitle) totalStat
  (todoContainer, [title, inputSection, todoList, statsSection])

/-- The subtree the useState iteration's `render` leaves under the mount
point: the container with every child of the component appended under it
(each child is an element, so none is filtered out). -/
def renderTree (todos : List String) (editIndex : Int) : VNode :=
  let comp := todoComponent todos editIndex
  comp.2.foldl vAppend comp.1

/-- The useState iteration's Render Loop: throw
`Root element not found in the DOM` when the mount point is absent;
otherwise discard the mount point's previous content (`root.innerHTML =
''`), build the component and attach the container with its children.
The component always has both `container` and `children`, so the
malformed-component TypeKind branch is unreachable here. -/
def render (root : Option (List VNode)) (todos : List String) (editIndex : Int) :
    Except String (List VNode) :=
  match root with
  | none => Except.error "Root element not found in the DOM"
  | some _prev => Except.ok [renderTree todos editIndex]

/-- One todo row of the basic iteration's `todoComponent`
(src/src/index.js): a list item holding the text span and the delete
button only; there is no edit button and no button group. -/
def buildItemBasic (todo : String) (index : Nat) : VNode :=
  createElement "li" [("class", AttrVal.str "todo-item")]
    [ChildArg.node (createElement "span"
        [("class", AttrVal.str "text"), ("id", AttrVal.str ("todo-" ++ toString index))]
        [ChildArg.str todo]),
     ChildArg.node (createElement "button"
        [("id", AttrVal.str ("delete-todo-" ++ toString index)),
         ("class", AttrVal.str "delete-button"), ("type", AttrVal.str "button")]
        [ChildArg.str "Delete"])]

/-- The rows of the basic iteration's builder. -/
def buildItemsBasic : List String → Nat → List VNode
  | [], _ => []
  | t :: ts, i => buildItemBasic t i :: buildItemsBasic ts (i + 1)

/-- The subtree the basic iteration's `render` (src/src/index.js) leaves
under the mount point: container with title, input, add button and the
todo list; the item rows are appended to the list only when there are
any, and no placeholder row exists in this iteration. -/
def renderTreeBasic (todos : List String) : VNode :=
  let todoContainer := createElement "div"
    [("id", AttrVal.str "todo-container"), ("class", AttrVal.str "todo-container")] []
  let title := createElement "h1" [("class", AttrVal.str "todo-title")]
    [ChildArg.str "Todo List"]
  let input := createElement "input"
    [("id", AttrVal.str "todo-input"), ("class", AttrVal.str "todo-input"),
     ("type", AttrVal.str "text"), ("placeholder", AttrVal.str "Add a new todo...")] []
  let addButton := createElement "button"
    [("id", AttrVal.str "add-todo-button"), ("class", AttrVal.str "todo-button"),
     ("type", AttrVal.str "button")]
    [ChildArg.str "Add Todo"]
  let todoList := createElement "ul"
    [("id", AttrVal.str "todo-list"), ("class", AttrVal.str "todo-list")] []
  let items := buildItemsBasic todos 0
  let todoList := if items.length ≠ 0 then items.foldl vAppend todoList else todoList
  vAppend (vAppend (vAppend (vAppend todoContainer title) input) addButton) todoList

/-- The basic iteration's render: `if (root) root.innerHTML = ''` skips
the clear when the mount point is missing, but the unconditional
`root.appendChild(todoContainer)` then throws a TypeError on the null
mount point, so nothing is ever attached; with a mount point present the
previous content is discarded and the fresh tree attached. -/
def renderBasic (root : Option (List VNode)) (todos : List String) :
    Except String (List VNode) :=
  match root with
  | none => Except.error "TypeError: root is null in root.appendChild"
  | some _prev => Except.ok [renderTreeBasic todos]

mutual

/-- Number of nodes in a tree satisfying a predicate. -/
def countNode (p : VNode → Bool) : VNode → Nat
  | VNode.text s => if p (VNode.text s) then 1 else 0
  | VNode.elem t cl cs ds ats ch =>
      (if p (VNode.elem t cl cs ds ats ch) then 1 else 0) + countNodes p ch

/-- Number of nodes in a forest satisfying a predicate. -/
def countNodes (p : VNode → Bool) : List VNode → Nat
  | [] => 0
  | v :: vs => countNode p v + countNodes p vs

end

/-- Whether a node carries a given class membership. -/
def hasClass (cls : String) : VNode → Bool
  | VNode.text _ => false
  | VNode.elem _ classes _ _ _ _ => classes.contains cls

/-- The placeholder row: a list item with the `empty-message` class whose
single child is the text `No todos available. Add a new todo!`. -/
def isPlaceholderRow : VNode → Bool
  | VNode.text _ => false
  | VNode.elem t classes _ _ _ ch =>
      t == "li" && classes.contains "empty-message" &&
      (match ch with
       | [VNode.text s] => s == "No todos available. Add a new todo!"
       | _ => false)

theorem filterIdxNe_of_lt (index : Nat) :
    ∀ (l : List String) (start : Nat), index < start → filterIdxNe index l start = l := by
  intro l
  induction l with
  | nil => intro start _; rfl
  | cons a as ih =>
      intro start h
      have hne : start ≠ index := by omega
      simp [filterIdxNe, hne, ih (start + 1) (by omega)]

theorem filterIdxNe_eq (index : Nat) :
    ∀ (l : List String) (start j : Nat), index = start + j →
      filterIdxNe index l start = l.take j ++ l.drop (j + 1) := by
  intro l
  induction l with
  | nil => intro start j _; simp [filterIdxNe]
  | cons a as ih =>
      intro start j h
      cases j with
      | zero =>
          have : ¬ start ≠ index := by omega
          simp [filterIdxNe, this, filterIdxNe_of_lt index as (start + 1) (by omega)]
      | succ j' =>
          have hne : start ≠ index := by omega
          simp [filterIdxNe, hne, ih (start + 1) j' (by omega)]

/-- The delete branch's filter removes exactly the element at the given
position. -/
theorem removeIdx_eq (l : List String) (k : Nat) :
    removeIdx l k = l.take k ++ l.drop (k + 1) :=
  filterIdxNe_eq k l 0 k (by omega)

theorem removeIdx_of_le (l : List String) (k : Nat) (h : l.length ≤ k) :
    removeIdx l k = l := by
  rw [removeIdx_eq, List.take_of_length_le h, List.drop_eq_nil_of_le (by omega)]
  simp

theorem splice1_length (l : List String) (k : Nat) (h : k < l.length) :
    (splice1 l k).length = l.length - 1 := by
  simp [splice1]
  omega

theorem splice1_getElem?_lt (l : List String) (k j : Nat) (h : j < k) :
    (splice1 l k)[j]? = l[j]? := by
  unfold splice1
  rcases Nat.lt_or_ge j l.length with hj | hj
  · rw [List.getElem?_append_left (by simp; omega), List.getElem?_take_of_lt h]
  · rw [List.getElem?_eq_none (l := l) (by omega), List.getElem?_eq_none]
    simp
    omega

theorem splice1_getElem?_ge (l : List String) (k j : Nat) (hk : k < l.length)
    (h : k ≤ j) : (splice1 l k)[j]? = l[j + 1]? := by
  unfold splice1
  rw [List.getElem?_append_right (by simp; omega), List.getElem?_drop]
  congr 1
  simp
  omega

/-- A left fold over `List.range n` with a step that does nothing except
possibly at the single position `i` collapses to that one step. -/
theorem foldl_range_single {α : Type} (f : α → Nat → α) (i : Nat)
    (h : ∀ a k, k ≠ i → f a k = a) :
    ∀ (n : Nat) (a : α), (List.range n).foldl f a = if i < n then f a i else a := by
  intro n
  induction n with
  | zero => intro a; simp
  | succ n ih =>
      intro a
      rw [List.range_succ, List.foldl_append, ih a]
      rcases Nat.lt_trichotomy i n with hlt | heq | hgt
      · simp [hlt, Nat.lt_succ_of_lt hlt, h _ n (by omega)]
      · subst heq; simp
      · have h1 : ¬ i < n := by omega
        have h2 : ¬ i < n + 1 := by omega
        simp [h1, h2, h _ n (by omega)]

/-- A left fold over `List.range n` with a step that never does anything
is the identity. -/
theorem foldl_range_id {α : Type} (f : α → Nat → α)
    (h : ∀ a k, f a k = a) (n : Nat) (a : α) :
    (List.range n).foldl f a = a := by
  rw [foldl_range_single f n (fun a k _ => h a k) n a]
  simp

/-- The forEach body of the useState handler does nothing at a position
whose delete and edit ids both differ from the click target. -/
theorem loopBody_eq_of_ne (target : ElemId) (k : Nat) (c : ClickCtx)
    (h1 : target ≠ ElemId.deleteTodo k) (h2 : target ≠ ElemId.editTodo k) :
    loopBody target k c = c := by
  simp [loopBody, h1, h2]

theorem deleteForEachGo_no_match (i : Nat) :
    ∀ (n k : Nat) (l : List String) (r : Bool), i < k →
      deleteForEachGo (ElemId.deleteTodo i) n k l r = (l, r) := by
  intro n
  induction n with
  | zero => intro k l r _; rfl
  | succ n ih =>
      intro k l r h
      have hne : ElemId.deleteTodo i ≠ ElemId.deleteTodo k := by
        intro hc; cases hc; omega
      by_cases hk : k < l.length <;>
        simp [deleteForEachGo, hk, hne, ih (k + 1) l r (by omega)]

theorem deleteForEachGo_fire (i : Nat) :
    ∀ (n k : Nat) (l : List String) (r : Bool), k ≤ i → i < l.length → i - k < n →
      deleteForEachGo (ElemId.deleteTodo i) n k l r = (splice1 l i, true) := by
  intro n
  induction n with
  | zero => intro _ _ _ _ _ hfuel; omega
  | succ n ih =>
      intro k l r hk hi hfuel
      have hklen : k < l.length := by omega
      rcases Nat.eq_or_lt_of_le hk with heq | hlt
      · subst heq
        simp only [deleteForEachGo, if_pos hklen, if_pos rfl]
        exact deleteForEachGo_no_match k n (k + 1) (splice1 l k) true (by omega)
      · have hne : ElemId.deleteTodo i ≠ ElemId.deleteTodo k := by
          intro hc; cases hc; omega
        simp only [deleteForEachGo, if_pos hklen, if_neg hne]
        exact ih (k + 1) l r (by omega) hi (by omega)

/-- The splice-inside-forEach loop of the basic iterations removes
exactly the element at the clicked position, and renders. -/
theorem deleteForEach_fire (l : List String) (i : Nat) (hi : i < l.length) :
    deleteForEach (ElemId.deleteTodo i) l = (splice1 l i, true) :=
  deleteForEachGo_fire i l.length 0 l false (by omega) hi (by omega)

theorem deleteForEachGo_other (target : ElemId)
    (h : ∀ k, target ≠ ElemId.deleteTodo k) :
    ∀ (n k : Nat) (l : List String) (r : Bool),
      deleteForEachGo target n k l r = (l, r) := by
  intro n
  induction n with
  | zero => intro k l r; rfl
  | succ n ih =>
      intro k l r
      by_cases hk : k < l.length <;>
        simp [deleteForEachGo, hk, h k, ih (k + 1) l r]

theorem deleteForEach_other (target : ElemId)
    (h : ∀ k, target ≠ ElemId.deleteTodo k) (l : List String) :
    deleteForEach target l = (l, false) :=
  deleteForEachGo_other target h l.length 0 l false

theorem handleClick_add_eq (s : AppState) :
    handleClick ElemId.addTodoButton s =
      (if jsTrim s.inputValue ≠ "" then
        if s.editIndex ≠ -1 then
          { todos := jsArraySet s.todos s.editIndex (jsTrim s.inputValue),
            editIndex := -1, inputValue := "" }
        else
          { todos := s.todos ++ [jsTrim s.inputValue],
            editIndex := s.editIndex, inputValue := "" }
      else
        { todos := s.todos, editIndex := s.editIndex, inputValue := "" }) := by
  have hloop : ∀ (n : Nat) (c : ClickCtx),
      (List.range n).foldl (fun c k => loopBody ElemId.addTodoButton k c) c = c :=
    fun n c => foldl_range_id _
      (fun a k => loopBody_eq_of_ne _ k a (by simp) (by simp)) n c
  unfold handleClick
  simp only [if_pos rfl, hloop]
  by_cases h1 : jsTrim s.inputValue = ""
  · simp [addBranch, h1, writeInput]
  · by_cases h2 : s.editIndex = -1
    · simp [addBranch, h1, h2, setTodosF, doRender, writeInput]
    · simp [addBranch, h1, h2, setTodosF, setEditIndexV, doRender, writeInput]

theorem handleClick_delete_eq (s : AppState) (i : Nat) (hi : i < s.todos.length) :
    handleClick (ElemId.deleteTodo i) s =
      if s.editIndex = (i : Int) then
        { todos := removeIdx s.todos i, editIndex := -1, inputValue := "" }
      else if (i : Int) < s.editIndex then
        { todos := removeIdx s.todos i, editIndex := s.editIndex - 1, inputValue := "" }
      else
        { todos := removeIdx s.todos i, editIndex := s.editIndex, inputValue := "" } := by
  have hsingle := foldl_range_single (fun c k => loopBody (ElemId.deleteTodo i) k c) i
    (fun a k hk => loopBody_eq_of_ne _ k a
      (by intro hc; cases hc; omega) (by simp)) s.todos.length
  unfold handleClick
  have hne : ¬ ElemId.deleteTodo i = ElemId.addTodoButton := by simp
  simp only [if_neg hne, hsingle, if_pos hi]
  unfold loopBody
  simp only [if_pos rfl]
  have hne2 : ¬ ElemId.deleteTodo i = ElemId.editTodo i := by simp
  split_ifs with h1 h2 <;>
    simp_all [setTodosF, setEditIndexV, setEditIndexDec, doRender, writeInput]

theorem handleClick_delete_oob (s : AppState) (i : Nat) (hi : s.todos.length ≤ i) :
    handleClick (ElemId.deleteTodo i) s = s := by
  have hsingle := foldl_range_single (fun c k => loopBody (ElemId.deleteTodo i) k c) i
    (fun a k hk => loopBody_eq_of_ne _ k a
      (by intro hc; cases hc; omega) (by simp)) s.todos.length
  unfold handleClick
  have hne : ¬ ElemId.deleteTodo i = ElemId.addTodoButton := by simp
  simp only [if_neg hne, hsingle, if_neg (by omega : ¬ i < s.todos.length)]

theorem handleClick_edit_eq (s : AppState) (i : Nat) (hi : i < s.todos.length) :
    handleClick (ElemId.editTodo i) s =
      { todos := s.todos, editIndex := Int.ofNat i, inputValue := "" } := by
  have hsingle := foldl_range_single (fun c k => loopBody (ElemId.editTodo i) k c) i
    (fun a k hk => loopBody_eq_of_ne _ k a
      (by simp) (by intro hc; cases hc; omega)) s.todos.length
  unfold handleClick
  have hne : ¬ ElemId.editTodo i = ElemId.addTodoButton := by simp
  simp only [if_neg hne, hsingle, if_pos hi]
  unfold loopBody
  have hne2 : ¬ ElemId.editTodo i = ElemId.deleteTodo i := by simp
  simp [hne2, setEditIndexV, doRender, writeInput]

theorem handleClick_edit_oob (s : AppState) (i : Nat) (hi : s.todos.length ≤ i) :
    handleClick (ElemId.editTodo i) s = s := by
  have hsingle := foldl_range_single (fun c k => loopBody (ElemId.editTodo i) k c) i
    (fun a k hk => loopBody_eq_of_ne _ k a
      (by simp) (by intro hc; cases hc; omega)) s.todos.length
  unfold handleClick
  have hne : ¬ ElemId.editTodo i = ElemId.addTodoButton := by simp
  simp only [if_neg hne, hsingle, if_neg (by omega : ¬ i < s.todos.length)]

theorem handleClick_other_eq (s : AppState) (str : String) :
    handleClick (ElemId.other str) s = s := by
  have hloop : ∀ (n : Nat) (c : ClickCtx),
      (List.range n).foldl (fun c k => loopBody (ElemId.other str) k c) c = c :=
    fun n c => foldl_range_id _
      (fun a k => loopBody_eq_of_ne _ k a (by simp) (by simp)) n c
  unfold handleClick
  have hne : ¬ ElemId.other str = ElemId.addTodoButton := by simp
  simp only [if_neg hne, hloop]

theorem countNodes_append (p : VNode → Bool) (xs ys : List VNode) :
    countNodes p (xs ++ ys) = countNodes p xs + countNodes p ys := by
  induction xs with
  | nil => simp [countNodes]
  | cons v vs ih => simp [countNodes, ih]; omega

theorem countNode_foldl_vAppend (p : VNode → Bool)
    (t : String) (cl : List String) (cs : String)
    (ds ats : List (String × String)) (items : List VNode)
    (hp : ∀ ch' : List VNode, p (VNode.elem t cl cs ds ats ch') = false) :
    ∀ ch : List VNode,
      countNode p (items.foldl vAppend (VNode.elem t cl cs ds ats ch)) =
        countNodes p ch + countNodes p items := by
  induction items with
  | nil => intro ch; simp [countNode, countNodes, hp]
  | cons v vs ih =>
      intro ch
      simp only [List.foldl_cons, vAppend]
      rw [ih (ch ++ [v])]
      simp [countNodes, countNodes_append]
      omega

theorem buildItems_length (ts : List String) : ∀ i, (buildItems ts i).length = ts.length := by
  induction ts with
  | nil => intro i; rfl
  | cons t ts ih => intro i; simp [buildItems, ih]

theorem countNode_buildItem (t : String) (i : Nat) :
    countNode isPlaceholderRow (buildItem t i) = 0 := by
  simp [buildItem, createElement, applyAttr, vAppend, countNode, countNodes,
    isPlaceholderRow, toChildNode, jsSplitSpace, jsSplitSpaceAux]

theorem countNodes_buildItems (ts : List String) :
    ∀ i, countNodes isPlaceholderRow (buildItems ts i) = 0 := by
  induction ts with
  | nil => intro i; rfl
  | cons t ts ih =>
      intro i
      simp [buildItems, countNodes, countNode_buildItem, ih]

/-- C1, counterexample: in the basic iteration (src/src/index.js, and the
identical first part_002 iteration), a click on the add control with a
whitespace-only input field is not rejected: the handler pushes the
trimmed (empty) text unconditionally, so the Todo List changes from `[]`
to `[""]`. -/
theorem claim_C1_counterexample :
    (handleClickBasic ElemId.addTodoButton
      { todos := [], inputValue := "   " }).todos = [""] ∧
    (handleClickBasic ElemId.addTodoButton
      { todos := [], inputValue := "   " }).todos ≠ [] := by
  decide

/-- C1, amended: in the useState iteration (the spec's core Event
Router, and behaviourally also the second part_002 iteration), a click
on the add/update control whose trimmed input text is empty leaves the
Todo List and the Edit Cursor unchanged: nothing is appended and no item
text is overwritten. -/
theorem claim_C1 (s : AppState) (h : jsTrim s.inputValue = "") :
    (handleClick ElemId.addTodoButton s).todos = s.todos ∧
    (handleClick ElemId.addTodoButton s).editIndex = s.editIndex := by
  rw [handleClick_add_eq]
  simp [h]

/-- C1, witness: the amended theorem at a concrete whitespace-only
input state. -/
theorem claim_C1_witness :
    (handleClick ElemId.addTodoButton
      { todos := ["a"], editIndex := -1, inputValue := "  " }).todos = ["a"] ∧
    (handleClick ElemId.addTodoButton
      { todos := ["a"], editIndex := -1, inputValue := "  " }).editIndex = -1 :=
  claim_C1 { todos := ["a"], editIndex := -1, inputValue := "  " } (by decide)

/-- C2: deleting the item at index `i` while the Edit Cursor is `j`
behaves as claimed: `j = i` resets the cursor to the sentinel and empties
the input field, `j > i` decrements the cursor, and `j < i` leaves it
unchanged. -/
theorem claim_C2 (s : AppState) (i : Nat) (hi : i < s.todos.length) :
    (s.editIndex = (i : Int) →
        (handleClick (ElemId.deleteTodo i) s).editIndex = -1 ∧
        (handleClick (ElemId.deleteTodo i) s).inputValue = "") ∧
    ((i : Int) < s.editIndex →
        (handleClick (ElemId.deleteTodo i) s).editIndex = s.editIndex - 1) ∧
    (s.editIndex < (i : Int) →
        (handleClick (ElemId.deleteTodo i) s).editIndex = s.editIndex) := by
  rw [handleClick_delete_eq s i hi]
  refine ⟨fun h => ?_, fun h => ?_, fun h => ?_⟩
  · simp [h]
  · rw [if_neg (by omega), if_pos h]
  · rw [if_neg (by omega), if_neg (by omega)]

/-- C2, witness: deleting the item under edit at a concrete state. -/
theorem claim_C2_witness :
    (handleClick (ElemId.deleteTodo 0)
      { todos := ["a", "b"], editIndex := 0, inputValue := "a" }).editIndex = -1 ∧
    (handleClick (ElemId.deleteTodo 0)
      { todos := ["a", "b"], editIndex := 0, inputValue := "a" }).inputValue = "" :=
  (claim_C2 { todos := ["a", "b"], editIndex := 0, inputValue := "a" } 0
    (by decide)).1 (by decide)

/-- C3: submitting non-empty trimmed text `t` while the Edit Cursor is a
valid index `i` overwrites exactly the item at `i` with `t`, keeps the
list length and every other item's text, and resets the cursor to the
sentinel. -/
theorem claim_C3 (s : AppState) (t : String) (i : Nat)
    (ht : jsTrim s.inputValue = t) (hne : t ≠ "")
    (hcur : s.editIndex = (i : Int)) (hi : i < s.todos.length) :
    (handleClick ElemId.addTodoButton s).todos.length = s.todos.length ∧
    (handleClick ElemId.addTodoButton s).todos[i]? = some t ∧
    (∀ j, j ≠ i → (handleClick ElemId.addTodoButton s).todos[j]? = s.todos[j]?) ∧
    (handleClick ElemId.addTodoButton s).editIndex = -1 := by
  rw [handleClick_add_eq]
  have h1 : ¬ ¬ jsTrim s.inputValue ≠ "" := by simp [ht, hne]
  have h2 : s.editIndex ≠ -1 := by rw [hcur]; omega
  rw [if_pos (by simpa using h1), if_pos h2, ht]
  have hset : jsArraySet s.todos s.editIndex t = s.todos.set i t := by
    unfold jsArraySet
    rw [if_pos ⟨by omega, by rw [hcur]; exact_mod_cast hi⟩, hcur]
    simp
  rw [hset]
  refine ⟨List.length_set s.todos i t, ?_, fun j hj => List.getElem?_set_ne hj.symm, rfl⟩
  simp [List.getElem?_set_eq_of_lt, hi]

/-- C3, witness: updating the first of two items at a concrete state. -/
theorem claim_C3_witness :
    (handleClick ElemId.addTodoButton
      { todos := ["a", "b"], editIndex := 0, inputValue := " x " }).todos[0]? = some "x" ∧
    (handleClick ElemId.addTodoButton
      { todos := ["a", "b"], editIndex := 0, inputValue := " x " }).editIndex = -1 :=
  ⟨(claim_C3 { todos := ["a", "b"], editIndex := 0, inputValue := " x " } "x" 0
      (by decide) (by decide) (by decide) (by decide)).2.1,
   (claim_C3 { todos := ["a", "b"], editIndex := 0, inputValue := " x " } "x" 0
      (by decide) (by decide) (by decide) (by decide)).2.2.2⟩

/-- C4: a delete click at a valid position `i` removes exactly the item
that was at `i` before the click, shifting every later item one position
left and leaving earlier items unchanged. The first conjunct settles the
basic iterations, whose handler splices the live array inside a forEach
over its indices; the second settles the useState iteration's
filter-based handler. -/
theorem claim_C4 :
    (∀ (l : List String) (i : Nat), i < l.length →
        (deleteForEach (ElemId.deleteTodo i) l).1.length = l.length - 1 ∧
        (∀ j, j < i → (deleteForEach (ElemId.deleteTodo i) l).1[j]? = l[j]?) ∧
        (∀ j, i ≤ j → (deleteForEach (ElemId.deleteTodo i) l).1[j]? = l[j + 1]?)) ∧
    (∀ (s : AppState) (i : Nat), i < s.todos.length →
        (handleClick (ElemId.deleteTodo i) s).todos =
          s.todos.take i ++ s.todos.drop (i + 1)) := by
  constructor
  · intro l i hi
    rw [deleteForEach_fire l i hi]
    exact ⟨splice1_length l i hi,
      fun j hj => splice1_getElem?_lt l i j hj,
      fun j hj => splice1_getElem?_ge l i j hi hj⟩
  · intro s i hi
    rw [handleClick_delete_eq s i hi]
    split_ifs <;> simp [removeIdx_eq]

/-- C4, witness: deleting the middle element of a three-element list, in
both handler styles. -/
theorem claim_C4_witness :
    (deleteForEach (ElemId.deleteTodo 1) ["a", "b", "c"]).1.length = 2 ∧
    (handleClick (ElemId.deleteTodo 1)
      { todos := ["a", "b", "c"], editIndex := -1, inputValue := "" }).todos = ["a", "c"] := by
  refine ⟨(claim_C4.1 ["a", "b", "c"] 1 (by decide)).1, ?_⟩
  rw [claim_C4.2 { todos := ["a", "b", "c"], editIndex := -1, inputValue := "" } 1 (by decide)]
  decide

/-- C5: the cursor invariant (Edit Cursor is the sentinel or a valid
index) is preserved by every click-handler invocation of the useState
iteration, whatever the clicked target, and therefore holds in every
state reachable by any sequence of clicks from the initial state. -/
theorem claim_C5 :
    (∀ (target : ElemId) (s : AppState), invS s → invS (handleClick target s)) ∧
    (∀ clicks : List ElemId, invS (run clicks initState)) := by
  have hpres : ∀ (target : ElemId) (s : AppState), invS s → invS (handleClick target s) := by
    intro target s hs
    cases target with
    | addTodoButton =>
        rw [handleClick_add_eq]
        unfold invS cursorInv at hs ⊢
        split_ifs with h1 h2
        · simp
        · simp_all
        · simpa using hs
    | deleteTodo i =>
        by_cases hi : i < s.todos.length
        · rw [handleClick_delete_eq s i hi]
          unfold invS cursorInv at hs ⊢
          have hlen : (removeIdx s.todos i).length = s.todos.length - 1 := by
            rw [removeIdx_eq]
            simp
            omega
          split_ifs with h1 h2 <;> simp [hlen] <;> omega
        · rw [handleClick_delete_oob s i (by omega)]
          exact hs
    | editTodo i =>
        by_cases hi : i < s.todos.length
        · rw [handleClick_edit_eq s i hi]
          unfold invS cursorInv
          right
          refine ⟨by simp, by simp; omega⟩
        · rw [handleClick_edit_oob s i (by omega)]
          exact hs
    | other str =>
        rw [handleClick_other_eq]
        exact hs
  refine ⟨hpres, fun clicks => ?_⟩
  have hrun : ∀ (cl : List ElemId) (s : AppState), invS s →
      invS (cl.foldl (fun s t => handleClick t s) s) := by
    intro cl
    induction cl with
    | nil => intro s hs; exact hs
    | cons t ts ih => intro s hs; exact ih _ (hpres t s hs)
  exact hrun clicks initState (by decide)

/-- C5, witness: the preservation part at a concrete state whose cursor
points at the deleted item. -/
theorem claim_C5_witness :
    invS (handleClick (ElemId.deleteTodo 0)
      { todos := ["a", "b"], editIndex := 1, inputValue := "" }) :=
  claim_C5.1 (ElemId.deleteTodo 0)
    { todos := ["a", "b"], editIndex := 1, inputValue := "" } (by decide)

/-- C6: the useState setter stores a non-function argument literally and
stores the result of applying a function argument to the current value;
with a construction-time callback present, the event trace is the
assignment first and then the callback run, and the callback observes
exactly the fully updated new value (which the getter returns from then
on). -/
theorem claim_C6 (α : Type) (hasCb : Bool) (cur a : α) (f : α → α) :
    (setState hasCb cur (SetArg.val a)).1 = a ∧
    (setState hasCb cur (SetArg.fn f)).1 = f cur ∧
    (hasCb = true →
      (setState hasCb cur (SetArg.val a)).2 =
        [SetEvent.assigned a, SetEvent.callbackRun a] ∧
      (setState hasCb cur (SetArg.fn f)).2 =
        [SetEvent.assigned (f cur), SetEvent.callbackRun (f cur)]) := by
  cases hasCb <;> simp [setState]

/-- C6, witness: a literal update of a Nat cell with a callback. -/
theorem claim_C6_witness :
    (setState true 1 (SetArg.val 5)).1 = 5 ∧
    (setState true 1 (SetArg.val 5)).2 =
      [SetEvent.assigned 5, SetEvent.callbackRun 5] :=
  ⟨(claim_C6 Nat true 1 5 id).1, ((claim_C6 Nat true 1 5 id).2.2 rfl).1⟩

/-- C7: with the mount point absent, both Render Loops raise an error
and attach nothing (the useState iteration throws its explicit error,
the basic iteration dies on the null `appendChild`); with the mount
point present, the result never depends on the previous content — it is
discarded wholesale — and rendering succeeds with the freshly built
tree. -/
theorem claim_C7 :
    (∀ (todos : List String) (e : Int),
        render none todos e = Except.error "Root element not found in the DOM") ∧
    (∀ (todos : List String) (e : Int) (prev prev' : List VNode),
        render (some prev) todos e = render (some prev') todos e) ∧
    (∀ (todos : List String) (e : Int) (prev : List VNode),
        render (some prev) todos e = Except.ok [renderTree todos e]) ∧
    (∀ (todos : List String) (prev : List VNode),
        renderBasic none todos =
          Except.error "TypeError: root is null in root.appendChild" ∧
        renderBasic (some prev) todos = Except.ok [renderTreeBasic todos]) :=
  ⟨fun _ _ => rfl, fun _ _ _ _ => rfl, fun _ _ _ => rfl, fun _ _ => ⟨rfl, rfl⟩⟩

/-- C8, counterexample: the basic iteration's view builder
(src/src/index.js) renders no placeholder row at all for the empty Todo
List — its list section is simply left empty — so the claim's "exactly
one placeholder row" fails for that builder. -/
theorem claim_C8_counterexample :
    countNode isPlaceholderRow (renderTreeBasic []) = 0 ∧
    countNode isPlaceholderRow (renderTreeBasic []) ≠ 1 := by
  constructor <;>
    simp [renderTreeBasic, createElement, applyAttr, vAppend, buildItemsBasic,
      countNode, countNodes, isPlaceholderRow, toChildNode, jsSplitSpace,
      jsSplitSpaceAux]

/-- C8, amended: the useState iteration's Todo View Builder (the spec's
core; the part_002 builders behave the same) renders, for the empty Todo
List, exactly one placeholder row with the text
`No todos available. Add a new todo!` and zero delete and zero edit
controls, and renders no placeholder row for a non-empty list; the
earliest iteration's builder (src/src/index.js) renders no placeholder
row even for the empty list. -/
theorem claim_C8 (e : Int) (todos : List String) (hne : todos ≠ []) :
    countNode isPlaceholderRow (renderTree [] e) = 1 ∧
    countNode (hasClass "delete-button") (renderTree [] e) = 0 ∧
    countNode (hasClass "edit-button") (renderTree [] e) = 0 ∧
    countNode isPlaceholderRow (renderTree todos e) = 0 := by
  refine ⟨?_, ?_, ?_, ?_⟩
  · simp [renderTree, todoComponent, createElement, applyAttr, vAppend, buildItems,
      countNode, countNodes, isPlaceholderRow, toChildNode, jsSplitSpace,
      jsSplitSpaceAux]
  · simp [renderTree, todoComponent, createElement, applyAttr, vAppend, buildItems,
      countNode, countNodes, hasClass, toChildNode, jsSplitSpace, jsSplitSpaceAux]
  · simp [renderTree, todoComponent, createElement, applyAttr, vAppend, buildItems,
      countNode, countNodes, hasClass, toChildNode, jsSplitSpace, jsSplitSpaceAux]
  · have hlen : ¬ ((buildItems todos 0).length = 0) := by
      rw [buildItems_length]
      simpa using hne
    simp [renderTree, todoComponent, createElement, applyAttr, vAppend, hlen,
      countNode, countNodes, isPlaceholderRow, toChildNode, jsSplitSpace,
      jsSplitSpaceAux, countNode_foldl_vAppend, countNodes_buildItems]

/-- C8, witness: the amended theorem's non-empty conjunct at a concrete
one-element list. -/
theorem claim_C8_witness :
    countNode isPlaceholderRow (renderTree ["a"] (-1)) = 0 :=
  (claim_C8 (-1) ["a"] (by decide)).2.2.2

/-- C9: after any click on the add/update control the document's input
field is empty, in every iteration that has such a control — the
useState iteration (where either the explicit clear or the re-render's
fresh input empties it), the basic iterations, and the state-object
iteration — regardless of whether the trimmed text was empty and of
whether an item was added or updated. -/
theorem claim_C9 :
    (∀ s : AppState, (handleClick ElemId.addTodoButton s).inputValue = "") ∧
    (∀ s : BasicState, (handleClickBasic ElemId.addTodoButton s).inputValue = "") ∧
    (∀ s : AppState, (stateObjAddClick s).inputValue = "") := by
  refine ⟨fun s => ?_, fun s => ?_, fun s => ?_⟩
  · rw [handleClick_add_eq]
    split_ifs <;> rfl
  · unfold handleClickBasic
    rw [if_pos rfl]
    simp [deleteForEach_other ElemId.addTodoButton (fun k h => by cases h)]
  · rfl

/-- C10: the setter dispatches on the runtime type of its argument, so a
function argument is always invoked as a transform — the stored value is
its application to the current value, never the function itself — while
the constructor stores the initial value verbatim, function or not. -/
theorem claim_C10 :
    (∀ (α : Type) (cur : α) (f : α → α) (hasCb : Bool),
        (setState hasCb cur (SetArg.fn f)).1 = f cur) ∧
    (∀ (α : Type) (v : α), useStateInit v = v) :=
  ⟨fun α cur f hasCb => by cases hasCb <;> rfl, fun α v => rfl⟩

end JsPlayground
